import Mathlib

/-!
Shallow embedding of the voice-assistant core (`VoiceClient` and
`AudioRecorder` from `src/web-speech.ts`).

The client is a record holding exactly the fields of the TypeScript class,
plus instrumentation that makes externally observable behaviour explicit:

* `actions` records calls into the external engines (recognizer start/stop,
  synthesizer speak/cancel, `URL.revokeObjectURL`, the injected `log` /
  `logError` callbacks, and the settlement of the promise returned by
  `speak`);
* `liveSessions` records the ids of capture sessions that have been started
  (`AudioRecorder.start`, i.e. a `MediaRecorder` running on a microphone
  stream) and not yet stopped (`mediaRecorder.stop()`);
* `rejections` records promise rejections that escape the core (nothing in
  the source attaches a rejection handler to them);
* `pendingTimers` records armed `setTimeout` instances by fresh id, so that
  `clearTimeout` and stale-timer firings behave as in the browser.

Each recognizer / synthesizer / timer callback and each public method of the
class becomes a function `VoiceClient → ... → VoiceClient`.  The functions
take the current `Date.now()` value `t : Nat` used to timestamp emitted
events.  Results of the external world that the code branches on are passed
as explicit parameters: `captureOk` (did `getUserMedia` succeed),
`fault` (did blob processing inside `AudioRecorder.stop` throw).
-/

inductive VoiceAssistantState
  | LISTENING_FOR_WAKE_WORD
  | ACTIVATING
  | RECORDING_USER_SPEECH
  | PROCESSING_USER_SPEECH
  | MUTED
  | SPEAKING
  deriving DecidableEq, Repr

open VoiceAssistantState

/-- The event variants of `VoiceAssistantEvent`, each carrying the timestamp
assigned at emission time.  The optional `error` payload object of the
`error` variant is dropped; only the message is kept. -/
inductive VEvent
  | statechange (state : VoiceAssistantState) (timestamp : Nat)
  | transcriptEv (transcript : String) (isFinal : Bool) (timestamp : Nat)
  | command (audioUrl : Option String) (extension : Option String) (timestamp : Nat)
  | speakstart (text : String) (timestamp : Nat)
  | speakend (timestamp : Nat)
  | errorEv (message : String) (timestamp : Nat)
  deriving DecidableEq, Repr

def VEvent.ts : VEvent → Nat
  | .statechange _ t => t
  | .transcriptEv _ _ t => t
  | .command _ _ t => t
  | .speakstart _ t => t
  | .speakend t => t
  | .errorEv _ t => t

def VEvent.isCommand : VEvent → Bool
  | .command _ _ _ => true
  | _ => false

def VEvent.isError : VEvent → Bool
  | .errorEv _ _ => true
  | _ => false

/-- Calls the core makes into its external collaborators, in order. -/
inductive ExtAction
  | recStart
  | recStop
  | synthCancel
  | synthSpeak (text : String)
  | revokeUrl (url : String)
  | logMsg (msg : String)
  | logErrorMsg (msg : String)
  | speakResolve
  | speakReject (reason : String)
  deriving DecidableEq, Repr

inductive TimerKind
  | endOfSpeech
  | noSpeechAfterWake
  deriving DecidableEq, Repr

structure PendingTimer where
  id : Nat
  kind : TimerKind
  duration : Nat
  deriving DecidableEq, Repr

/-- `AudioRecorder`: one capture session.  `id` is the ghost session id used
by the `liveSessions` instrumentation; `mimeType` is the negotiated mime type
(the source always constructs the recorder with `"audio/wav"`);
`audioChunks` is the append-only chunk buffer (chunk payloads abstracted to
`Nat`). -/
structure AudioRecorder where
  id : Nat
  mimeType : String
  audioChunks : List Nat
  deriving DecidableEq, Repr

structure VoiceClient where
  state : VoiceAssistantState
  wakeAnchor : String
  finalTranscriptSinceRecording : String
  audioRecorder : Option AudioRecorder
  endOfSpeechTimeout : Option Nat
  noSpeechAfterWakeWordTimeout : Option Nat
  eventQueue : List VEvent
  actions : List ExtAction
  pendingTimers : List PendingTimer
  nextTimerId : Nat
  nextSessionId : Nat
  liveSessions : List Nat
  speakPending : Bool
  rejections : List String
  deriving DecidableEq, Repr

/-- `#emit`: push the stamped event onto the queue (and wake the consumer). -/
def emitEv (c : VoiceClient) (ev : VEvent) : VoiceClient :=
  { c with eventQueue := c.eventQueue ++ [ev] }

def act (c : VoiceClient) (a : ExtAction) : VoiceClient :=
  { c with actions := c.actions ++ [a] }

def logAct (c : VoiceClient) (m : String) : VoiceClient :=
  act c (.logMsg m)

def logErrAct (c : VoiceClient) (m : String) : VoiceClient :=
  act c (.logErrorMsg m)

/-- The `state` setter: re-setting the same value is a no-op, otherwise the
field is updated and a `statechange` event is emitted. -/
def setState (c : VoiceClient) (t : Nat) (s : VoiceAssistantState) : VoiceClient :=
  if c.state = s then c
  else emitEv { c with state := s } (.statechange s t)

/-- `clearTimeout` on an optional timer handle: removes the pending instance
with that id, if any (a `clearTimeout(undefined)` or a stale id is a no-op). -/
def clearTimeoutId (c : VoiceClient) (o : Option Nat) : VoiceClient :=
  { c with pendingTimers := c.pendingTimers.filter (fun e => !(o == some e.id)) }

/-- `setTimeout`: arms a fresh one-shot timer and returns its handle. -/
def armTimer (c : VoiceClient) (k : TimerKind) (d : Nat) : VoiceClient × Nat :=
  ({ c with
      pendingTimers := c.pendingTimers ++ [⟨c.nextTimerId, k, d⟩],
      nextTimerId := c.nextTimerId + 1 }, c.nextTimerId)

/-- First-separator split of a character list: the part before the first
occurrence of `sep`, and (when `sep` occurs) the part after it. -/
def splitFirst (sep : Char) : List Char → List Char × Option (List Char)
  | [] => ([], none)
  | c :: rest =>
    if c = sep then ([], some rest)
    else
      let p := splitFirst sep rest
      (c :: p.1, p.2)

/-- `(mimeType.split(";")[0].split("/")[1]) || "bin"` from `AudioRecorder.stop`:
the subtype of the media type, with fallback `"bin"` when it is absent or
empty. -/
def extensionOf (mimeType : String) : String :=
  let beforeSemi := (splitFirst ';' mimeType.toList).1
  match (splitFirst '/' beforeSemi).2 with
  | none => "bin"
  | some rest =>
    let seg := (splitFirst '/' rest).1
    if seg = [] then "bin" else String.mk seg

/-- The object URL `URL.createObjectURL` yields for a session, abstracted as
a locator derived from the ghost session id. -/
def urlOf (r : AudioRecorder) : String :=
  "blob:" ++ toString r.id

/-- `AudioRecorder.stop`: stops the media recorder (the session stops being
live) and resolves with the locator and extension, resolves with `null` when
no chunks were recorded (logging through the error logger), or rejects when
blob processing faults. -/
def audioRecorderStop (c : VoiceClient) (r : AudioRecorder) (fault : Bool) :
    VoiceClient × Except String (Option (String × String)) :=
  let c := { c with liveSessions := c.liveSessions.filter (fun i => i != r.id) }
  if r.audioChunks.isEmpty then
    (logErrAct c "No audio chunks recorded. Cannot create audio blob.", .ok none)
  else if fault then
    (logErrAct c "Error processing audio", .error "Failed to process recorded audio.")
  else
    (c, .ok (some (urlOf r, extensionOf r.mimeType)))

/-- `VoiceClient.#stopRecording`.  `fault` is whether blob processing inside
`AudioRecorder.stop` throws. -/
def stopRecording (c : VoiceClient) (t : Nat) (fault : Bool) : VoiceClient :=
  if c.state ≠ RECORDING_USER_SPEECH then c
  else
    let c := setState c t PROCESSING_USER_SPEECH
    let c := clearTimeoutId c c.endOfSpeechTimeout
    let c := { c with endOfSpeechTimeout := none }
    let c := clearTimeoutId c c.noSpeechAfterWakeWordTimeout
    let c := { c with noSpeechAfterWakeWordTimeout := none }
    match c.audioRecorder with
    | none =>
      -- `this.#audioRecorder!.stop(...)` on undefined: the async method
      -- rejects with a TypeError; nothing after it runs.
      { c with rejections := c.rejections ++ ["TypeError"] }
    | some r =>
      let p := audioRecorderStop c r fault
      match p.2 with
      | .error msg =>
        -- the awaited stop() rejected: the rest of #stopRecording is
        -- skipped and the rejection escapes to the (non-awaiting) caller
        { p.1 with rejections := p.1.rejections ++ [msg] }
      | .ok res =>
        let c := { p.1 with audioRecorder := none }
        emitEv c (.command (res.map Prod.fst) (res.map Prod.snd) t)

/-- `VoiceClient.#activate`.  `captureOk` is whether
`navigator.mediaDevices.getUserMedia` succeeds; on failure
`AudioRecorder.start` logs and throws, so the rest of `#activate` is skipped
and its rejection escapes through `#onResult`. -/
def activate (c : VoiceClient) (t : Nat) (captureOk : Bool) : VoiceClient :=
  if c.state ≠ LISTENING_FOR_WAKE_WORD then c
  else
    let c := setState c t ACTIVATING
    let c := { c with finalTranscriptSinceRecording := "" }
    if captureOk then
      let r : AudioRecorder := ⟨c.nextSessionId, "audio/wav", []⟩
      let c := logAct c "Using mimeType: audio/wav"
      let c := { c with
        audioRecorder := some r,
        nextSessionId := c.nextSessionId + 1,
        liveSessions := c.liveSessions ++ [r.id] }
      let c := setState c t RECORDING_USER_SPEECH
      let p := armTimer c .noSpeechAfterWake 15000
      { p.1 with noSpeechAfterWakeWordTimeout := some p.2 }
    else
      let c := logErrAct c "Could not start audio recording"
      { c with rejections := c.rejections ++ ["Could not get user media"] }

/-- Case folding used to model the `/i` regex flag (ASCII, as in the wake
phrases the repository configures). -/
def lowerList (s : String) : List Char :=
  s.toList.map Char.toLower

def isLowerAlpha (c : Char) : Bool :=
  'a' ≤ c && c ≤ 'z'

/-- `[^a-z]+` followed by the literal anchor: at least one non-letter
character, then `anchor` as a prefix of what remains (with backtracking over
how many separator characters are consumed, as in the regex engine). -/
def matchSepThen (anchor : List Char) : List Char → Bool
  | [] => false
  | ch :: rest =>
    !isLowerAlpha ch && (anchor.isPrefixOf rest || matchSepThen anchor rest)

/-- `(?:ok|okay)[^a-z]+<anchor>` anchored at the head of the (case-folded)
input. -/
def matchWakeAt (anchor : List Char) (s : List Char) : Bool :=
  match s with
  | 'o' :: 'k' :: rest =>
    matchSepThen anchor rest ||
      (match rest with
       | 'a' :: 'y' :: rest2 => matchSepThen anchor rest2
       | _ => false)
  | _ => false

def wakeScan (anchor : List Char) : List Char → Bool
  | [] => false
  | c :: rest => matchWakeAt anchor (c :: rest) || wakeScan anchor rest

/-- `wakePhraseRegex.test(text)` for the wake phrase family the repository
uses, `/(?:ok|okay)[^a-z]+<anchor>/i` (default anchor `"metallica"`): the
pattern is sought at every position of the case-folded text. -/
def wakePhrase (anchor : String) (text : String) : Bool :=
  wakeScan anchor.toList (lowerList text)

/-- `VoiceClient.#onResult`.  The recognizer delivers a results list; the
source folds it into the concatenated interim and newly-finalized strings,
which are taken here as the inputs `interim` and `final`. -/
def onResultDispatch (c : VoiceClient) (t : Nat) (interim final : String)
    (captureOk : Bool) : VoiceClient :=
  if c.state = LISTENING_FOR_WAKE_WORD then
    if wakePhrase c.wakeAnchor (interim ++ final) then activate c t captureOk
    else c
  else if c.state = RECORDING_USER_SPEECH then
    let c := { c with
      finalTranscriptSinceRecording := c.finalTranscriptSinceRecording ++ final }
    let hasSpeech :=
      c.finalTranscriptSinceRecording.length + interim.length > 0
    let timeout := if hasSpeech then 1700 else 5000
    let c := clearTimeoutId c c.endOfSpeechTimeout
    let p := armTimer c .endOfSpeech timeout
    { p.1 with endOfSpeechTimeout := some p.2 }
  else c

def onResult (c : VoiceClient) (t : Nat) (interim final : String)
    (captureOk : Bool) : VoiceClient :=
  if c.state = MUTED then c
  else
    let c := if interim = "" then c else emitEv c (.transcriptEv interim false t)
    let c := if final = "" then c else emitEv c (.transcriptEv final true t)
    onResultDispatch c t interim final captureOk

/-- `VoiceClient.#onError`. -/
def onError (c : VoiceClient) (t : Nat) (kind : String) (fault : Bool) :
    VoiceClient :=
  if kind = "aborted" then logAct c "Recognition aborted. Ignoring."
  else if kind = "no-speech" then
    stopRecording (logAct c "Recognition: no-speech error.") t fault
  else
    let c := emitEv c (.errorEv ("Recognition Error: \x27" ++ kind ++ "\x27") t)
    let c := logAct c ("Error occurred in recognition: " ++ kind)
    if c.state = RECORDING_USER_SPEECH then stopRecording c t fault else c

/-- `VoiceClient.#onSpeechStart`. -/
def onSpeechStart (c : VoiceClient) : VoiceClient :=
  if c.state = RECORDING_USER_SPEECH && c.noSpeechAfterWakeWordTimeout.isSome then
    let c := clearTimeoutId c c.noSpeechAfterWakeWordTimeout
    { c with noSpeechAfterWakeWordTimeout := none }
  else c

/-- `VoiceClient.#onEnd` (recognizer session ended). -/
def onEnd (c : VoiceClient) : VoiceClient :=
  if c.state = SPEAKING || c.state = MUTED then c
  else act c .recStart

/-- `VoiceClient.speak`, the synchronous part: while muted the returned
promise is already resolved and nothing else happens; otherwise the state
moves to SPEAKING, the recognizer is stopped, `speakstart` is emitted and the
text is handed to the synthesizer. -/
def speakCall (c : VoiceClient) (t : Nat) (text : String) : VoiceClient :=
  if c.state = MUTED then act c .speakResolve
  else
    let c := setState c t SPEAKING
    let c := act c .recStop
    let c := emitEv c (.speakstart text t)
    let c := act c (.synthSpeak text)
    { c with speakPending := true }

/-- `utterance.onend`: only deliverable while an utterance from `speak` is
pending. -/
def synthEndCb (c : VoiceClient) (t : Nat) : VoiceClient :=
  if !c.speakPending then c
  else
    let c := emitEv c (.speakend t)
    let c := if c.state = MUTED then c else setState c t LISTENING_FOR_WAKE_WORD
    let c := act c .recStart
    let c := act c .speakResolve
    { c with speakPending := false }

/-- `utterance.onerror`: only deliverable while an utterance from `speak` is
pending. -/
def synthErrorCb (c : VoiceClient) (t : Nat) (desc : String) : VoiceClient :=
  if !c.speakPending then c
  else
    let c := emitEv c (.errorEv ("TTS Error: " ++ desc) t)
    let c := if c.state = MUTED then c else setState c t LISTENING_FOR_WAKE_WORD
    let c := act c .recStart
    let c := act c (.speakReject desc)
    { c with speakPending := false }

/-- The teardown branch of `VoiceClient.toggleMute`: while Activating or
Recording, stop and discard the live capture session (revoking any locator it
produced) and disarm both timers. -/
def muteTeardown (c : VoiceClient) (fault : Bool) : VoiceClient :=
  if c.state = RECORDING_USER_SPEECH || c.state = ACTIVATING then
    let c :=
      match c.audioRecorder with
      | none => c
      | some r =>
        let p := audioRecorderStop c r fault
        match p.2 with
        | .ok (some u) => act p.1 (.revokeUrl u.1)
        | .ok none => p.1
        | .error msg => { p.1 with rejections := p.1.rejections ++ [msg] }
    let c := { c with audioRecorder := none }
    let c := clearTimeoutId c c.endOfSpeechTimeout
    let c := { c with endOfSpeechTimeout := none }
    let c := clearTimeoutId c c.noSpeechAfterWakeWordTimeout
    { c with noSpeechAfterWakeWordTimeout := none }
  else c

/-- `VoiceClient.toggleMute`.  `fault` parameterizes the blob processing of
the teardown `AudioRecorder.stop`.  `speechSynthesis.cancel()` interrupts any
pending utterance; its error callback (error kind `"interrupted"`) is
delivered right after this handler, with the state already MUTED, and is
composed into this function. -/
def toggleMute (c : VoiceClient) (t : Nat) (fault : Bool) : VoiceClient :=
  if c.state = MUTED then
    let c := setState c t LISTENING_FOR_WAKE_WORD
    let c := logAct c "Unmuted."
    act c .recStart
  else
    let c := logAct c "Muting."
    let c := act c .recStop
    let c := act c .synthCancel
    let c := muteTeardown c fault
    let c := setState c t MUTED
    if c.speakPending then
      let c := emitEv c (.errorEv "TTS Error: interrupted" t)
      let c := act c .recStart
      let c := act c (.speakReject "interrupted")
      { c with speakPending := false }
    else c

/-- `ondataavailable`: the capture engine appends a chunk to the current
session buffer. -/
def onData (c : VoiceClient) (chunk : Nat) : VoiceClient :=
  match c.audioRecorder with
  | none => c
  | some r =>
    { c with audioRecorder := some { r with audioChunks := r.audioChunks ++ [chunk] } }

/-- A timer firing: only a still-pending instance can fire; it is consumed
and its callback runs (`#stopRecording` for the end-of-speech timer, a log
plus `#stopRecording` for the post-wake-word guard timer). -/
def fireTimer (c : VoiceClient) (t : Nat) (i : Nat) (fault : Bool) : VoiceClient :=
  match c.pendingTimers.find? (fun e => e.id == i) with
  | none => c
  | some e =>
    let c := { c with pendingTimers := c.pendingTimers.filter (fun x => x.id != i) }
    match e.kind with
    | .endOfSpeech => stopRecording c t fault
    | .noSpeechAfterWake =>
      stopRecording (logAct c "No speech detected for 15s, cancelling recording.") t fault

/-- The client as `VoiceClient.init` leaves it (the recognizer has been
started). -/
def initClient (initialState : VoiceAssistantState) (anchor : String) : VoiceClient :=
  { state := initialState
    wakeAnchor := anchor
    finalTranscriptSinceRecording := ""
    audioRecorder := none
    endOfSpeechTimeout := none
    noSpeechAfterWakeWordTimeout := none
    eventQueue := []
    actions := [.recStart]
    pendingTimers := []
    nextTimerId := 0
    nextSessionId := 0
    liveSessions := []
    speakPending := false
    rejections := [] }

/-- First consumption of `events()`: the generator body runs and emits one
`statechange` carrying the current state; thereafter it drains `eventQueue`
front to back, so the consumed sequence is exactly `eventQueue`. -/
def subscribe (c : VoiceClient) (t : Nat) : VoiceClient :=
  emitEv c (.statechange c.state t)

/-- One externally triggered reaction of the client. -/
inductive VInput
  | result (interim final : String) (captureOk : Bool)
  | recError (kind : String) (fault : Bool)
  | speechStart
  | recEnded
  | mute (fault : Bool)
  | speakReq (text : String)
  | synthDone
  | synthFail (desc : String)
  | fire (i : Nat) (fault : Bool)
  | data (chunk : Nat)
  deriving DecidableEq, Repr

def step (c : VoiceClient) (t : Nat) : VInput → VoiceClient
  | .result i f cap => onResult c t i f cap
  | .recError k fl => onError c t k fl
  | .speechStart => onSpeechStart c
  | .recEnded => onEnd c
  | .mute fl => toggleMute c t fl
  | .speakReq txt => speakCall c t txt
  | .synthDone => synthEndCb c t
  | .synthFail d => synthErrorCb c t d
  | .fire i fl => fireTimer c t i fl
  | .data ch => onData c ch

def run (c : VoiceClient) : List (Nat × VInput) → VoiceClient
  | [] => c
  | (t, i) :: l => run (step c t i) l

/-- Claim C3: Stop-Recording is a no-op in every state other than Recording;
from Recording it transitions to Processing, disarms both timers
unconditionally, finalizes the Capture Session, and emits exactly one Command
event whose locator is empty exactly when zero audio chunks were captured; it
never advances the state past Processing. -/
theorem stopRecording_spec (c : VoiceClient) (t : Nat) (fault : Bool) (r : AudioRecorder) :
    (c.state ≠ RECORDING_USER_SPEECH → stopRecording c t fault = c) ∧
    (c.state = RECORDING_USER_SPEECH → c.audioRecorder = some r → fault = false →
      (stopRecording c t fault).state = PROCESSING_USER_SPEECH ∧
      (stopRecording c t fault).endOfSpeechTimeout = none ∧
      (stopRecording c t fault).noSpeechAfterWakeWordTimeout = none ∧
      (stopRecording c t fault).audioRecorder = none ∧
      r.id ∉ (stopRecording c t fault).liveSessions ∧
      (stopRecording c t fault).eventQueue =
        c.eventQueue ++ [.statechange PROCESSING_USER_SPEECH t,
          .command (if r.audioChunks.isEmpty then none else some (urlOf r))
                   (if r.audioChunks.isEmpty then none else some (extensionOf r.mimeType)) t]) := by
  constructor
  · intro h
    simp [stopRecording, h]
  · intro hs hr hf
    subst hf
    by_cases he : r.audioChunks.isEmpty <;>
      simp [stopRecording, hs, setState, emitEv, clearTimeoutId, hr, audioRecorderStop, he,
        logErrAct, act, List.mem_filter]

/-- Well-formedness of the timer bookkeeping: every pending instance of a
named timer is the one its field references, and all issued handles are below
the fresh-handle counter.  This holds in every reachable client state. -/
def timerWF (c : VoiceClient) : Prop :=
  (∀ e ∈ c.pendingTimers, e.kind = TimerKind.endOfSpeech → c.endOfSpeechTimeout = some e.id) ∧
  (∀ e ∈ c.pendingTimers, e.kind = TimerKind.noSpeechAfterWake → c.noSpeechAfterWakeWordTimeout = some e.id) ∧
  (∀ e ∈ c.pendingTimers, e.id < c.nextTimerId) ∧
  (∀ i, c.endOfSpeechTimeout = some i → i < c.nextTimerId) ∧
  (∀ i, c.noSpeechAfterWakeWordTimeout = some i → i < c.nextTimerId)

theorem pending_clear_no_eos (c : VoiceClient)
    (h : ∀ e ∈ c.pendingTimers, e.kind = TimerKind.endOfSpeech → c.endOfSpeechTimeout = some e.id) :
    (c.pendingTimers.filter (fun e => !(c.endOfSpeechTimeout == some e.id))).filter
      (fun e => e.kind == TimerKind.endOfSpeech) = [] := by
  rw [List.filter_filter, List.filter_eq_nil_iff]
  intro e he
  by_cases hk : e.kind = TimerKind.endOfSpeech
  · have hh := h e he hk
    simp [hk, hh]
  · simp [hk]

theorem onResult_recording (c : VoiceClient) (t : Nat) (interim final : String) (cap : Bool)
    (hs : c.state = RECORDING_USER_SPEECH) :
    onResult c t interim final cap =
      { c with
        eventQueue := c.eventQueue
          ++ (if interim = "" then [] else [.transcriptEv interim false t])
          ++ (if final = "" then [] else [.transcriptEv final true t]),
        finalTranscriptSinceRecording := c.finalTranscriptSinceRecording ++ final,
        pendingTimers :=
          c.pendingTimers.filter (fun e => !(c.endOfSpeechTimeout == some e.id))
          ++ [⟨c.nextTimerId, .endOfSpeech,
              if (c.finalTranscriptSinceRecording ++ final).length + interim.length > 0
              then 1700 else 5000⟩],
        nextTimerId := c.nextTimerId + 1,
        endOfSpeechTimeout := some c.nextTimerId } := by
  by_cases hi : interim = "" <;> by_cases hf : final = "" <;>
    simp [onResult, onResultDispatch, emitEv, clearTimeoutId, armTimer, hs, hi, hf]

/-- Claim C2: while Recording, every transcript delta re-arms the
end-of-utterance timer, with duration 1700ms when the accumulated finalized
transcript length plus the delta interim length is positive and 5000ms when
both are zero; re-arming first cancels the previously armed end-of-utterance
timer. -/
theorem endOfSpeech_rearm (c : VoiceClient) (t : Nat) (interim final : String) (cap : Bool)
    (hs : c.state = RECORDING_USER_SPEECH) (hwf : timerWF c) :
    (onResult c t interim final cap).finalTranscriptSinceRecording =
      c.finalTranscriptSinceRecording ++ final ∧
    (onResult c t interim final cap).endOfSpeechTimeout = some c.nextTimerId ∧
    (onResult c t interim final cap).pendingTimers.filter
        (fun e => e.kind == TimerKind.endOfSpeech) =
      [⟨c.nextTimerId, TimerKind.endOfSpeech,
        if (c.finalTranscriptSinceRecording ++ final).length + interim.length > 0
        then 1700 else 5000⟩] ∧
    (∀ i, c.endOfSpeechTimeout = some i →
      ∀ e ∈ (onResult c t interim final cap).pendingTimers, e.id ≠ i) := by
  obtain ⟨h1, _h2, _h3, h4, _h5⟩ := hwf
  rw [onResult_recording c t interim final cap hs]
  refine ⟨rfl, rfl, ?_, ?_⟩
  · rw [List.filter_append, pending_clear_no_eos c h1]
    simp
  · intro i hio e he
    rw [List.mem_append] at he
    rcases he with hm | hm
    · have hp := (List.mem_filter.mp hm).2
      simp [hio] at hp
      omega
    · simp at hm
      subst hm
      have := h4 i hio
      simp
      omega

/-- Claim C10 (amended): when finalizing the Capture Session fails while
chunks exist, Stop-Recording logs the failure through the error logger, emits
neither an Error event nor a Command event, leaves the session reference set
and the state in Processing, and the failure escapes the core as a rejected
promise.  (The claim as stated — Error event surfaced, Command with empty
locator emitted, no error escaping — is refuted by
`finalize_failure_counterexample`.) -/
theorem finalize_failure_spec (c : VoiceClient) (t : Nat) (r : AudioRecorder)
    (hs : c.state = RECORDING_USER_SPEECH) (hr : c.audioRecorder = some r)
    (hne : r.audioChunks ≠ []) :
    (stopRecording c t true).state = PROCESSING_USER_SPEECH ∧
    (stopRecording c t true).eventQueue =
      c.eventQueue ++ [.statechange PROCESSING_USER_SPEECH t] ∧
    (stopRecording c t true).audioRecorder = some r ∧
    ExtAction.logErrorMsg "Error processing audio" ∈ (stopRecording c t true).actions ∧
    (stopRecording c t true).rejections =
      c.rejections ++ ["Failed to process recorded audio."] := by
  have he : r.audioChunks.isEmpty = false := by
    cases hc : r.audioChunks <;> simp_all
  simp [stopRecording, hs, setState, emitEv, clearTimeoutId, hr, audioRecorderStop, he,
    logErrAct, act]

/-- Claim C9 (amended): when starting the Capture Session fails during the
Activate transition, the failure is surfaced at the activation attempt (the
error logger is invoked and the activation promise rejects past the core),
but the machine remains in Activating with no live session and no armed
timer; it is not returned to ListeningForWake.  (The claim as stated is
refuted by `activate_failure_counterexample`.) -/
theorem activate_failure_spec (c : VoiceClient) (t : Nat) (interim final : String)
    (hs : c.state = LISTENING_FOR_WAKE_WORD)
    (hw : wakePhrase c.wakeAnchor (interim ++ final) = true) :
    (onResult c t interim final false).state = ACTIVATING ∧
    (onResult c t interim final false).audioRecorder = c.audioRecorder ∧
    (onResult c t interim final false).liveSessions = c.liveSessions ∧
    (onResult c t interim final false).pendingTimers = c.pendingTimers ∧
    ExtAction.logErrorMsg "Could not start audio recording" ∈ (onResult c t interim final false).actions ∧
    (onResult c t interim final false).rejections =
      c.rejections ++ ["Could not get user media"] := by
  have hw2 := hw
  by_cases hi : interim = "" <;> by_cases hf : final = "" <;>
    simp [hi, hf] at hw2 <;>
    simp [onResult, onResultDispatch, activate, emitEv, setState, logErrAct, act, hs, hi, hf, hw2]

theorem matchSepThen_complete (anchor : List Char) :
    ∀ (sep post : List Char), sep ≠ [] →
      (∀ ch ∈ sep, isLowerAlpha ch = false) →
      matchSepThen anchor (sep ++ (anchor ++ post)) = true := by
  intro sep
  induction sep with
  | nil => intro post hne _; exact absurd rfl hne
  | cons c rest ih =>
    intro post _ hall
    have hc : isLowerAlpha c = false := hall c (List.mem_cons_self c rest)
    cases rest with
    | nil =>
      have hpfx : anchor.isPrefixOf (anchor ++ post) = true :=
        List.isPrefixOf_iff_prefix.mpr (List.prefix_append anchor post)
      simp [matchSepThen, hc, hpfx]
    | cons c2 rest2 =>
      have hrec := ih post (by simp) (fun ch hch => hall ch (List.mem_cons_of_mem c hch))
      have hstep : ((c :: c2 :: rest2) ++ (anchor ++ post)) =
          c :: ((c2 :: rest2) ++ (anchor ++ post)) := rfl
      rw [hstep, matchSepThen, hc, hrec]
      simp

theorem matchWakeAt_complete (anchor sep post kw : List Char)
    (hkw : kw = ['o', 'k'] ∨ kw = ['o', 'k', 'a', 'y'])
    (hne : sep ≠ []) (hall : ∀ ch ∈ sep, isLowerAlpha ch = false) :
    matchWakeAt anchor (kw ++ (sep ++ (anchor ++ post))) = true := by
  have h := matchSepThen_complete anchor sep post hne hall
  rcases hkw with h2 | h2 <;> subst h2 <;> simp [matchWakeAt, h]

theorem wakeScan_suffix (anchor : List Char) :
    ∀ (pre s : List Char), matchWakeAt anchor s = true → s ≠ [] →
      wakeScan anchor (pre ++ s) = true := by
  intro pre
  induction pre with
  | nil =>
    intro s h hne
    cases s with
    | nil => exact absurd rfl hne
    | cons a rest => simp [wakeScan, h]
  | cons p pre ih =>
    intro s h hne
    have hr := ih s h hne
    simp [wakeScan]
    exact Or.inr hr

theorem activate_success (c : VoiceClient) (t : Nat)
    (hs : c.state = LISTENING_FOR_WAKE_WORD) :
    activate c t true =
      { c with
        state := RECORDING_USER_SPEECH,
        finalTranscriptSinceRecording := "",
        audioRecorder := some ⟨c.nextSessionId, "audio/wav", []⟩,
        nextSessionId := c.nextSessionId + 1,
        liveSessions := c.liveSessions ++ [c.nextSessionId],
        eventQueue := c.eventQueue
          ++ [.statechange ACTIVATING t, .statechange RECORDING_USER_SPEECH t],
        actions := c.actions ++ [.logMsg "Using mimeType: audio/wav"],
        pendingTimers := c.pendingTimers ++ [⟨c.nextTimerId, .noSpeechAfterWake, 15000⟩],
        nextTimerId := c.nextTimerId + 1,
        noSpeechAfterWakeWordTimeout := some c.nextTimerId } := by
  simp [activate, setState, emitEv, logAct, act, armTimer, hs]

theorem onResult_wake (c : VoiceClient) (t : Nat) (interim final : String) (cap : Bool)
    (hs : c.state = LISTENING_FOR_WAKE_WORD)
    (hw : wakePhrase c.wakeAnchor (interim ++ final) = true) :
    onResult c t interim final cap =
      activate { c with eventQueue := c.eventQueue
          ++ (if interim = "" then [] else [.transcriptEv interim false t])
          ++ (if final = "" then [] else [.transcriptEv final true t]) } t cap := by
  have hw2 := hw
  cases c
  subst hs
  by_cases hi : interim = "" <;> by_cases hf : final = "" <;>
    simp [hi, hf] at hw2 <;>
    simp [onResult, onResultDispatch, emitEv, hi, hf, hw2]

theorem stopRecording_state (c : VoiceClient) (t : Nat) (f : Bool)
    (hs : c.state = RECORDING_USER_SPEECH) :
    (stopRecording c t f).state = PROCESSING_USER_SPEECH := by
  cases har : c.audioRecorder with
  | none => simp [stopRecording, hs, setState, emitEv, clearTimeoutId, har]
  | some r =>
    by_cases he : r.audioChunks.isEmpty <;> cases f <;>
      simp [stopRecording, hs, setState, emitEv, clearTimeoutId, har, audioRecorderStop, he,
        logErrAct, act]

/-- Claim C6: the wake-word matcher is a pure, stateless, case-insensitive
predicate accepting any text in which the wake keyword (ok or okay) is
separated from the anchor word by one or more non-letter characters; when, in
ListeningForWake, the concatenation of interim and newly-finalized text
satisfies it, the machine transitions through Activating, resets the
accumulated transcript, starts a Capture Session, reaches Recording, and arms
the 15000ms post-wake-word silence timer whose firing invokes Stop-Recording
(driving the state to Processing). -/
theorem wake_matcher_spec (anchor : String) :
    (∀ s1 s2 : String, lowerList s1 = lowerList s2 →
      wakePhrase anchor s1 = wakePhrase anchor s2) ∧
    (∀ (t : String) (pre kw sep post : List Char),
      lowerList t = pre ++ (kw ++ (sep ++ (anchor.toList ++ post))) →
      (kw = ['o', 'k'] ∨ kw = ['o', 'k', 'a', 'y']) →
      sep ≠ [] → (∀ ch ∈ sep, isLowerAlpha ch = false) →
      wakePhrase anchor t = true) ∧
    (∀ (c : VoiceClient) (t : Nat) (interim final : String),
      c.state = LISTENING_FOR_WAKE_WORD →
      wakePhrase c.wakeAnchor (interim ++ final) = true →
      timerWF c →
      (onResult c t interim final true).state = RECORDING_USER_SPEECH ∧
      (onResult c t interim final true).finalTranscriptSinceRecording = "" ∧
      VEvent.statechange ACTIVATING t ∈ (onResult c t interim final true).eventQueue ∧
      (onResult c t interim final true).audioRecorder =
        some ⟨c.nextSessionId, "audio/wav", []⟩ ∧
      c.nextSessionId ∈ (onResult c t interim final true).liveSessions ∧
      (⟨c.nextTimerId, TimerKind.noSpeechAfterWake, 15000⟩ : PendingTimer) ∈
        (onResult c t interim final true).pendingTimers ∧
      (onResult c t interim final true).noSpeechAfterWakeWordTimeout = some c.nextTimerId ∧
      (∀ (t2 : Nat) (fault : Bool),
        (fireTimer (onResult c t interim final true) t2 c.nextTimerId fault).state =
          PROCESSING_USER_SPEECH)) := by
  refine ⟨?_, ?_, ?_⟩
  · intro s1 s2 h
    unfold wakePhrase
    rw [h]
  · intro t pre kw sep post hdecomp hkw hne hall
    unfold wakePhrase
    rw [hdecomp]
    refine wakeScan_suffix anchor.toList pre _
      (matchWakeAt_complete anchor.toList sep post kw hkw hne hall) ?_
    rcases hkw with h | h <;> subst h <;> simp
  · intro c t interim final hs hw hwf
    rw [onResult_wake c t interim final true hs hw]
    rw [activate_success _ t (by simp [hs])]
    have hfind : List.find? (fun e => e.id == c.nextTimerId) c.pendingTimers = none := by
      rw [List.find?_eq_none]
      intro x hx
      have hlt := hwf.2.2.1 x hx
      simp
      omega
    refine ⟨rfl, rfl, by simp, rfl, by simp, by simp, rfl, ?_⟩
    intro t2 fault
    simp only [fireTimer]
    simp [List.find?_append, hfind]
    exact stopRecording_state _ t2 fault (by simp [logAct, act])

theorem pending_clear_both (c : VoiceClient)
    (h1 : ∀ e ∈ c.pendingTimers, e.kind = TimerKind.endOfSpeech → c.endOfSpeechTimeout = some e.id)
    (h2 : ∀ e ∈ c.pendingTimers, e.kind = TimerKind.noSpeechAfterWake → c.noSpeechAfterWakeWordTimeout = some e.id) :
    (c.pendingTimers.filter (fun e => !(c.endOfSpeechTimeout == some e.id))).filter
      (fun e => !(c.noSpeechAfterWakeWordTimeout == some e.id)) = [] := by
  rw [List.filter_filter, List.filter_eq_nil_iff]
  intro e he
  cases hk : e.kind with
  | endOfSpeech =>
    have hh := h1 e he hk
    simp [hh]
  | noSpeechAfterWake =>
    have hh := h2 e he hk
    simp [hh]

theorem pend_aux (c : VoiceClient) (hwf : timerWF c) :
    ∀ a ∈ c.pendingTimers, ¬c.noSpeechAfterWakeWordTimeout = some a.id →
      c.endOfSpeechTimeout = some a.id := by
  intro a ha hns
  cases hk : a.kind with
  | endOfSpeech => exact hwf.1 a ha hk
  | noSpeechAfterWake => exact absurd (hwf.2.1 a ha hk) hns

/-- Claim C4: toggleMute from any non-Muted state stops the recognizer and
cancels in-progress speech playback, and — when Activating or Recording —
tears down the live Capture Session (discarding its audio, revoking its
locator), disarms both timers and transitions to Muted emitting no Command
event; from Muted it transitions to ListeningForWake and restarts the
recognizer. -/
theorem toggleMute_spec (c : VoiceClient) (t : Nat) (fault : Bool) :
    (c.state = MUTED →
      (toggleMute c t fault).state = LISTENING_FOR_WAKE_WORD ∧
      ExtAction.recStart ∈ (toggleMute c t fault).actions ∧
      (toggleMute c t fault).eventQueue =
        c.eventQueue ++ [.statechange LISTENING_FOR_WAKE_WORD t]) ∧
    (c.state ≠ MUTED →
      (toggleMute c t fault).state = MUTED ∧
      ExtAction.recStop ∈ (toggleMute c t fault).actions ∧
      ExtAction.synthCancel ∈ (toggleMute c t fault).actions ∧
      (toggleMute c t fault).eventQueue.filter VEvent.isCommand =
        c.eventQueue.filter VEvent.isCommand ∧
      ((c.state = RECORDING_USER_SPEECH ∨ c.state = ACTIVATING) →
        (toggleMute c t fault).audioRecorder = none ∧
        (toggleMute c t fault).endOfSpeechTimeout = none ∧
        (toggleMute c t fault).noSpeechAfterWakeWordTimeout = none ∧
        (timerWF c → (toggleMute c t fault).pendingTimers = []) ∧
        (∀ r, c.audioRecorder = some r →
          r.id ∉ (toggleMute c t fault).liveSessions ∧
          (r.audioChunks ≠ [] → fault = false →
            ExtAction.revokeUrl (urlOf r) ∈ (toggleMute c t fault).actions)))) := by
  constructor
  · intro hm
    simp [toggleMute, muteTeardown, hm, setState, logAct, act, emitEv]
  · intro hm
    by_cases hra : c.state = RECORDING_USER_SPEECH ∨ c.state = ACTIVATING
    · cases har : c.audioRecorder with
      | none =>
        by_cases hp : c.speakPending <;> rcases hra with hra | hra <;>
          simp [toggleMute, muteTeardown, hm, hra, har, setState, logAct, logErrAct, act, emitEv,
            clearTimeoutId, audioRecorderStop, hp, List.filter_append, VEvent.isCommand] <;>
          exact fun hwf => pend_aux c hwf
      | some r =>
        by_cases hp : c.speakPending <;> by_cases he : r.audioChunks.isEmpty <;>
          cases fault <;> rcases hra with hra | hra <;>
          simp [toggleMute, muteTeardown, hm, hra, har, setState, logAct, logErrAct, act, emitEv,
            clearTimeoutId, audioRecorderStop, hp, he, List.filter_append, VEvent.isCommand,
            List.mem_filter] <;>
          first
            | exact fun hwf => pend_aux c hwf
            | exact ⟨fun hwf => pend_aux c hwf, fun hne => absurd (by simpa using he) hne⟩
    · have hr : c.state ≠ RECORDING_USER_SPEECH := fun h => hra (Or.inl h)
      have ha : c.state ≠ ACTIVATING := fun h => hra (Or.inr h)
      by_cases hp : c.speakPending <;>
        simp [toggleMute, muteTeardown, hm, hr, ha, setState, logAct, act, emitEv, hp,
          List.filter_append, VEvent.isCommand]

/-- Claim C5: speak(text) while Muted resolves immediately with no state
change and no events; otherwise it transitions to Speaking, stops the
recognizer, emits SpeechStart with the text and marks the utterance pending;
on synthesis completion it emits SpeechEnd, transitions to ListeningForWake
unless a concurrent mute left the state Muted, restarts the recognizer, and
fulfills the completion signal. -/
theorem speak_spec (c : VoiceClient) (t : Nat) (text : String) :
    (c.state = MUTED →
      (speakCall c t text).state = c.state ∧
      (speakCall c t text).eventQueue = c.eventQueue ∧
      (speakCall c t text).actions = c.actions ++ [ExtAction.speakResolve] ∧
      (speakCall c t text).speakPending = c.speakPending) ∧
    (c.state ≠ MUTED →
      (speakCall c t text).state = SPEAKING ∧
      ExtAction.recStop ∈ (speakCall c t text).actions ∧
      ExtAction.synthSpeak text ∈ (speakCall c t text).actions ∧
      (speakCall c t text).eventQueue =
        c.eventQueue ++ (if c.state = SPEAKING then [.speakstart text t]
          else [.statechange SPEAKING t, .speakstart text t]) ∧
      (speakCall c t text).speakPending = true) ∧
    (c.speakPending = true →
      (synthEndCb c t).state = (if c.state = MUTED then MUTED else LISTENING_FOR_WAKE_WORD) ∧
      (synthEndCb c t).eventQueue =
        c.eventQueue ++ [.speakend t] ++
          (if c.state = MUTED then []
           else if c.state = LISTENING_FOR_WAKE_WORD then []
           else [.statechange LISTENING_FOR_WAKE_WORD t]) ∧
      ExtAction.recStart ∈ (synthEndCb c t).actions ∧
      ExtAction.speakResolve ∈ (synthEndCb c t).actions ∧
      (synthEndCb c t).speakPending = false) := by
  refine ⟨?_, ?_, ?_⟩
  · intro hm
    simp [speakCall, hm, act]
  · intro hm
    by_cases hsp : c.state = SPEAKING <;>
      simp [speakCall, hm, hsp, setState, emitEv, act]
  · intro hp
    by_cases hm : c.state = MUTED
    · simp [synthEndCb, hp, hm, setState, emitEv, act]
    · by_cases hl : c.state = LISTENING_FOR_WAKE_WORD <;>
        simp [synthEndCb, hp, hm, hl, setState, emitEv, act]

/-- Equality of every component of the client except the external-action
trace (used to compare two paths that differ only in what they logged). -/
def coreEq (a b : VoiceClient) : Prop :=
  a.state = b.state ∧ a.eventQueue = b.eventQueue ∧ a.audioRecorder = b.audioRecorder ∧
  a.endOfSpeechTimeout = b.endOfSpeechTimeout ∧
  a.noSpeechAfterWakeWordTimeout = b.noSpeechAfterWakeWordTimeout ∧
  a.pendingTimers = b.pendingTimers ∧
  a.finalTranscriptSinceRecording = b.finalTranscriptSinceRecording ∧
  a.liveSessions = b.liveSessions ∧ a.nextTimerId = b.nextTimerId ∧
  a.nextSessionId = b.nextSessionId ∧ a.speakPending = b.speakPending ∧
  a.rejections = b.rejections ∧ a.wakeAnchor = b.wakeAnchor

theorem stopRecording_actions_coreEq (c : VoiceClient) (m : String) (t : Nat) (f : Bool) :
    coreEq (stopRecording (logAct c m) t f) (stopRecording c t f) := by
  by_cases hs : c.state = RECORDING_USER_SPEECH
  · cases har : c.audioRecorder with
    | none =>
      simp [stopRecording, logAct, act, hs, setState, emitEv, clearTimeoutId, har, coreEq]
    | some r =>
      by_cases he : r.audioChunks.isEmpty <;> cases f <;>
        simp [stopRecording, logAct, act, hs, setState, emitEv, clearTimeoutId, har,
          audioRecorderStop, he, logErrAct, coreEq]
  · simp [stopRecording, logAct, act, hs, coreEq]

theorem stopRecording_no_error_event (c : VoiceClient) (t : Nat) (f : Bool) :
    (stopRecording c t f).eventQueue.filter VEvent.isError =
      c.eventQueue.filter VEvent.isError := by
  by_cases hs : c.state = RECORDING_USER_SPEECH
  · cases har : c.audioRecorder with
    | none =>
      simp [stopRecording, hs, setState, emitEv, clearTimeoutId, har,
        List.filter_append, VEvent.isError]
    | some r =>
      by_cases he : r.audioChunks.isEmpty <;> cases f <;>
        simp [stopRecording, hs, setState, emitEv, clearTimeoutId, har,
          audioRecorderStop, he, logErrAct, act, List.filter_append, VEvent.isError]
  · simp [stopRecording, hs]

/-- The queue after an operation extends the queue before it by events all
stamped with the current time. -/
def queueExtT (a b : VoiceClient) (t : Nat) : Prop :=
  ∃ new, b.eventQueue = a.eventQueue ++ new ∧ ∀ e ∈ new, e.ts = t

theorem queueExtT_of_eq {a b : VoiceClient} (t : Nat)
    (h : b.eventQueue = a.eventQueue) : queueExtT a b t :=
  ⟨[], by simp [h], by simp⟩

theorem queueExtT_refl (a : VoiceClient) (t : Nat) : queueExtT a a t :=
  queueExtT_of_eq t rfl

theorem queueExtT_trans {a b c : VoiceClient} {t : Nat}
    (h1 : queueExtT a b t) (h2 : queueExtT b c t) : queueExtT a c t := by
  obtain ⟨n1, e1, f1⟩ := h1
  obtain ⟨n2, e2, f2⟩ := h2
  refine ⟨n1 ++ n2, by simp [e2, e1], ?_⟩
  intro e he
  rcases List.mem_append.mp he with h | h
  · exact f1 e h
  · exact f2 e h

theorem qext_stopRecording (c : VoiceClient) (t : Nat) (f : Bool) :
    queueExtT c (stopRecording c t f) t := by
  by_cases hs : c.state = RECORDING_USER_SPEECH
  · cases har : c.audioRecorder with
    | none =>
      exact ⟨[.statechange PROCESSING_USER_SPEECH t],
        by simp [stopRecording, hs, har, setState, emitEv, clearTimeoutId],
        by simp [VEvent.ts]⟩
    | some r =>
      by_cases he : r.audioChunks.isEmpty
      · exact ⟨[.statechange PROCESSING_USER_SPEECH t, .command none none t],
          by simp [stopRecording, hs, har, setState, emitEv, clearTimeoutId,
            audioRecorderStop, he, logErrAct, act],
          by simp [VEvent.ts]⟩
      · cases f
        · exact ⟨[.statechange PROCESSING_USER_SPEECH t,
              .command (some (urlOf r)) (some (extensionOf r.mimeType)) t],
            by simp [stopRecording, hs, har, setState, emitEv, clearTimeoutId,
              audioRecorderStop, he, logErrAct, act],
            by simp [VEvent.ts]⟩
        · exact ⟨[.statechange PROCESSING_USER_SPEECH t],
            by simp [stopRecording, hs, har, setState, emitEv, clearTimeoutId,
              audioRecorderStop, he, logErrAct, act],
            by simp [VEvent.ts]⟩
  · exact queueExtT_of_eq t (by simp [stopRecording, hs])

theorem qext_activate (c : VoiceClient) (t : Nat) (cap : Bool) :
    queueExtT c (activate c t cap) t := by
  by_cases hs : c.state = LISTENING_FOR_WAKE_WORD
  · cases cap
    · exact ⟨[.statechange ACTIVATING t],
        by simp [activate, hs, setState, emitEv, logErrAct, act],
        by simp [VEvent.ts]⟩
    · exact ⟨[.statechange ACTIVATING t, .statechange RECORDING_USER_SPEECH t],
        by simp [activate, hs, setState, emitEv, logAct, act, armTimer],
        by simp [VEvent.ts]⟩
  · exact queueExtT_of_eq t (by simp [activate, hs])

/-- Claim C8: recognizer errors are routed by kind — aborted is ignored (a
log only, no event, no transition); no-speech invokes Stop-Recording with
exactly the same downstream state, queue and Command semantics as a
timer-driven endpoint and is never surfaced as an Error event; every other
kind emits an Error event and additionally drives Recording to Processing via
Stop-Recording. -/
theorem onError_routing (c : VoiceClient) (t : Nat) (kind : String) (fault : Bool) :
    (kind = "aborted" → onError c t kind fault = logAct c "Recognition aborted. Ignoring.") ∧
    (kind = "no-speech" →
      coreEq (onError c t kind fault) (stopRecording c t fault) ∧
      (onError c t kind fault).eventQueue.filter VEvent.isError =
        c.eventQueue.filter VEvent.isError) ∧
    (kind ≠ "aborted" → kind ≠ "no-speech" →
      VEvent.errorEv ("Recognition Error: \x27" ++ kind ++ "\x27") t ∈
        (onError c t kind fault).eventQueue ∧
      (c.state = RECORDING_USER_SPEECH →
        (onError c t kind fault).state = PROCESSING_USER_SPEECH) ∧
      (c.state ≠ RECORDING_USER_SPEECH →
        onError c t kind fault =
          logAct (emitEv c (.errorEv ("Recognition Error: \x27" ++ kind ++ "\x27") t))
            ("Error occurred in recognition: " ++ kind))) := by
  refine ⟨?_, ?_, ?_⟩
  · intro hk
    subst hk
    simp [onError]
  · intro hk
    subst hk
    constructor
    · rw [show onError c t "no-speech" fault =
          stopRecording (logAct c "Recognition: no-speech error.") t fault by
        simp [onError]]
      exact stopRecording_actions_coreEq c _ t fault
    · rw [show onError c t "no-speech" fault =
          stopRecording (logAct c "Recognition: no-speech error.") t fault by
        simp [onError]]
      rw [stopRecording_no_error_event]
      simp [logAct, act]
  · intro hk1 hk2
    by_cases hs : c.state = RECORDING_USER_SPEECH
    · refine ⟨?_, fun _ => ?_, fun h => absurd hs h⟩
      · have hqe := qext_stopRecording
          (logAct (emitEv c (.errorEv ("Recognition Error: \x27" ++ kind ++ "\x27") t))
            ("Error occurred in recognition: " ++ kind)) t fault
        obtain ⟨new, hq, -⟩ := hqe
        have hform : onError c t kind fault =
            stopRecording
              (logAct (emitEv c (.errorEv ("Recognition Error: \x27" ++ kind ++ "\x27") t))
                ("Error occurred in recognition: " ++ kind)) t fault := by
          simp [onError, hk1, hk2, emitEv, logAct, act, hs]
        rw [hform, hq]
        simp [logAct, act, emitEv]
      · have hform : onError c t kind fault =
            stopRecording
              (logAct (emitEv c (.errorEv ("Recognition Error: \x27" ++ kind ++ "\x27") t))
                ("Error occurred in recognition: " ++ kind)) t fault := by
          simp [onError, hk1, hk2, emitEv, logAct, act, hs]
        rw [hform]
        exact stopRecording_state _ t fault (by simp [logAct, act, emitEv, hs])
    · simp [onError, hk1, hk2, hs, emitEv, logAct, act]

theorem muteTeardown_fields (c : VoiceClient) (f : Bool) :
    (muteTeardown c f).eventQueue = c.eventQueue ∧
    (muteTeardown c f).state = c.state ∧
    (muteTeardown c f).speakPending = c.speakPending := by
  unfold muteTeardown
  by_cases hr : (decide (c.state = RECORDING_USER_SPEECH) || decide (c.state = ACTIVATING)) = true
  · rw [if_pos hr]
    cases har : c.audioRecorder with
    | none => simp [clearTimeoutId]
    | some r =>
      by_cases he : r.audioChunks.isEmpty <;> cases f <;>
        simp [audioRecorderStop, he, logErrAct, act, clearTimeoutId]
  · rw [if_neg hr]
    exact ⟨rfl, rfl, rfl⟩

theorem qext_toggleMute (c : VoiceClient) (t : Nat) (fault : Bool) :
    queueExtT c (toggleMute c t fault) t := by
  by_cases hm : c.state = MUTED
  · exact ⟨[.statechange LISTENING_FOR_WAKE_WORD t],
      by simp [toggleMute, hm, setState, emitEv, logAct, act],
      by simp [VEvent.ts]⟩
  · by_cases hp : c.speakPending = true
    · obtain ⟨h1, h2, h3⟩ :=
        muteTeardown_fields (act (act (logAct c "Muting.") .recStop) .synthCancel) fault
      simp [logAct, act, hp] at h1 h2 h3
      refine ⟨[.statechange MUTED t, .errorEv "TTS Error: interrupted" t], ?_,
        by simp [VEvent.ts]⟩
      simp only [toggleMute, if_neg hm]
      simp [setState, emitEv, logAct, act, h1, h2, h3, hm, hp]
    · obtain ⟨h1, h2, h3⟩ :=
        muteTeardown_fields (act (act (logAct c "Muting.") .recStop) .synthCancel) fault
      simp [logAct, act, hp] at h1 h2 h3
      refine ⟨[.statechange MUTED t], ?_, by simp [VEvent.ts]⟩
      simp only [toggleMute, if_neg hm]
      simp [setState, emitEv, logAct, act, h1, h2, h3, hm, hp]

theorem qext_onResultDispatch (c : VoiceClient) (t : Nat) (interim final : String)
    (cap : Bool) : queueExtT c (onResultDispatch c t interim final cap) t := by
  by_cases hL : c.state = LISTENING_FOR_WAKE_WORD
  · by_cases hw : wakePhrase c.wakeAnchor (interim ++ final) = true
    · have hform : onResultDispatch c t interim final cap = activate c t cap := by
        simp [onResultDispatch, hL, hw]
      rw [hform]
      exact qext_activate c t cap
    · exact queueExtT_of_eq t (by simp [onResultDispatch, hL, hw])
  · by_cases hR : c.state = RECORDING_USER_SPEECH
    · exact queueExtT_of_eq t
        (by simp [onResultDispatch, hL, hR, clearTimeoutId, armTimer])
    · exact queueExtT_of_eq t (by simp [onResultDispatch, hL, hR])

theorem qext_onResult (c : VoiceClient) (t : Nat) (interim final : String) (cap : Bool) :
    queueExtT c (onResult c t interim final cap) t := by
  by_cases hm : c.state = MUTED
  · exact queueExtT_of_eq t (by simp [onResult, hm])
  · by_cases hi : interim = "" <;> by_cases hf : final = ""
    · have hform : onResult c t interim final cap =
          onResultDispatch c t interim final cap := by
        simp [onResult, hm, hi, hf]
      rw [hform]
      exact qext_onResultDispatch c t interim final cap
    · have hform : onResult c t interim final cap =
          onResultDispatch (emitEv c (.transcriptEv final true t)) t interim final cap := by
        simp [onResult, hm, hi, hf]
      rw [hform]
      exact queueExtT_trans
        ⟨[.transcriptEv final true t], by simp [emitEv], by simp [VEvent.ts]⟩
        (qext_onResultDispatch _ t interim final cap)
    · have hform : onResult c t interim final cap =
          onResultDispatch (emitEv c (.transcriptEv interim false t)) t interim final cap := by
        simp [onResult, hm, hi, hf]
      rw [hform]
      exact queueExtT_trans
        ⟨[.transcriptEv interim false t], by simp [emitEv], by simp [VEvent.ts]⟩
        (qext_onResultDispatch _ t interim final cap)
    · have hform : onResult c t interim final cap =
          onResultDispatch
            (emitEv (emitEv c (.transcriptEv interim false t)) (.transcriptEv final true t))
            t interim final cap := by
        simp [onResult, hm, hi, hf]
      rw [hform]
      exact queueExtT_trans
        ⟨[.transcriptEv interim false t, .transcriptEv final true t],
          by simp [emitEv], by simp [VEvent.ts]⟩
        (qext_onResultDispatch _ t interim final cap)

theorem qext_onError (c : VoiceClient) (t : Nat) (kind : String) (fault : Bool) :
    queueExtT c (onError c t kind fault) t := by
  by_cases h1 : kind = "aborted"
  · exact queueExtT_of_eq t (by simp [onError, h1, logAct, act])
  · by_cases h2 : kind = "no-speech"
    · have hform : onError c t kind fault =
          stopRecording (logAct c "Recognition: no-speech error.") t fault := by
        simp [onError, h1, h2]
      rw [hform]
      exact queueExtT_trans (queueExtT_of_eq t (by simp [logAct, act]))
        (qext_stopRecording _ t fault)
    · by_cases hs : c.state = RECORDING_USER_SPEECH
      · have hform : onError c t kind fault =
            stopRecording
              (logAct (emitEv c (.errorEv ("Recognition Error: \x27" ++ kind ++ "\x27") t))
                ("Error occurred in recognition: " ++ kind)) t fault := by
          simp [onError, h1, h2, hs, emitEv, logAct, act]
        rw [hform]
        exact queueExtT_trans
          ⟨[.errorEv ("Recognition Error: \x27" ++ kind ++ "\x27") t],
            by simp [emitEv, logAct, act], by simp [VEvent.ts]⟩
          (qext_stopRecording _ t fault)
      · exact ⟨[.errorEv ("Recognition Error: \x27" ++ kind ++ "\x27") t],
          by simp [onError, h1, h2, hs, emitEv, logAct, act], by simp [VEvent.ts]⟩

theorem qext_speakCall (c : VoiceClient) (t : Nat) (text : String) :
    queueExtT c (speakCall c t text) t := by
  by_cases hm : c.state = MUTED
  · exact queueExtT_of_eq t (by simp [speakCall, hm, act])
  · by_cases hsp : c.state = SPEAKING
    · exact ⟨[.speakstart text t],
        by simp [speakCall, hm, hsp, setState, emitEv, act], by simp [VEvent.ts]⟩
    · exact ⟨[.statechange SPEAKING t, .speakstart text t],
        by simp [speakCall, hm, hsp, setState, emitEv, act], by simp [VEvent.ts]⟩

theorem qext_synthEndCb (c : VoiceClient) (t : Nat) :
    queueExtT c (synthEndCb c t) t := by
  by_cases hp : c.speakPending = true
  · by_cases hm : c.state = MUTED
    · exact ⟨[.speakend t], by simp [synthEndCb, hp, hm, emitEv, act], by simp [VEvent.ts]⟩
    · by_cases hl : c.state = LISTENING_FOR_WAKE_WORD
      · exact ⟨[.speakend t],
          by simp [synthEndCb, hp, hm, hl, setState, emitEv, act], by simp [VEvent.ts]⟩
      · exact ⟨[.speakend t, .statechange LISTENING_FOR_WAKE_WORD t],
          by simp [synthEndCb, hp, hm, hl, setState, emitEv, act], by simp [VEvent.ts]⟩
  · exact queueExtT_of_eq t (by simp [synthEndCb, hp])

theorem qext_synthErrorCb (c : VoiceClient) (t : Nat) (d : String) :
    queueExtT c (synthErrorCb c t d) t := by
  by_cases hp : c.speakPending = true
  · by_cases hm : c.state = MUTED
    · exact ⟨[.errorEv ("TTS Error: " ++ d) t],
        by simp [synthErrorCb, hp, hm, emitEv, act], by simp [VEvent.ts]⟩
    · by_cases hl : c.state = LISTENING_FOR_WAKE_WORD
      · exact ⟨[.errorEv ("TTS Error: " ++ d) t],
          by simp [synthErrorCb, hp, hm, hl, setState, emitEv, act], by simp [VEvent.ts]⟩
      · exact ⟨[.errorEv ("TTS Error: " ++ d) t, .statechange LISTENING_FOR_WAKE_WORD t],
          by simp [synthErrorCb, hp, hm, hl, setState, emitEv, act], by simp [VEvent.ts]⟩
  · exact queueExtT_of_eq t (by simp [synthErrorCb, hp])

theorem qext_onSpeechStart (c : VoiceClient) (t : Nat) :
    queueExtT c (onSpeechStart c) t := by
  by_cases h : (decide (c.state = RECORDING_USER_SPEECH) &&
      c.noSpeechAfterWakeWordTimeout.isSome) = true
  · exact queueExtT_of_eq t (by simp [onSpeechStart, h, clearTimeoutId])
  · exact queueExtT_of_eq t (by simp [onSpeechStart, h])

theorem qext_onEnd (c : VoiceClient) (t : Nat) : queueExtT c (onEnd c) t := by
  by_cases h : (decide (c.state = SPEAKING) || decide (c.state = MUTED)) = true
  · exact queueExtT_of_eq t (by simp [onEnd, h])
  · exact queueExtT_of_eq t (by simp [onEnd, h, act])

theorem qext_onData (c : VoiceClient) (chunk : Nat) (t : Nat) :
    queueExtT c (onData c chunk) t := by
  cases har : c.audioRecorder with
  | none => exact queueExtT_of_eq t (by simp [onData, har])
  | some r => exact queueExtT_of_eq t (by simp [onData, har])

theorem qext_fireTimer (c : VoiceClient) (t : Nat) (i : Nat) (fault : Bool) :
    queueExtT c (fireTimer c t i fault) t := by
  cases hfind : c.pendingTimers.find? (fun e => e.id == i) with
  | none => exact queueExtT_of_eq t (by simp [fireTimer, hfind])
  | some e =>
    cases hk : e.kind with
    | endOfSpeech =>
      have hform : fireTimer c t i fault =
          stopRecording { c with pendingTimers := c.pendingTimers.filter (fun x => x.id != i) }
            t fault := by
        simp [fireTimer, hfind, hk]
      rw [hform]
      exact queueExtT_trans (queueExtT_of_eq t (by simp)) (qext_stopRecording _ t fault)
    | noSpeechAfterWake =>
      have hform : fireTimer c t i fault =
          stopRecording
            (logAct { c with pendingTimers := c.pendingTimers.filter (fun x => x.id != i) }
              "No speech detected for 15s, cancelling recording.") t fault := by
        simp [fireTimer, hfind, hk]
      rw [hform]
      exact queueExtT_trans (queueExtT_of_eq t (by simp [logAct, act]))
        (qext_stopRecording _ t fault)

theorem qext_step (c : VoiceClient) (t : Nat) (i : VInput) :
    queueExtT c (step c t i) t := by
  cases i with
  | result a b cap => exact qext_onResult c t a b cap
  | recError k fl => exact qext_onError c t k fl
  | speechStart => exact qext_onSpeechStart c t
  | recEnded => exact qext_onEnd c t
  | mute fl => exact qext_toggleMute c t fl
  | speakReq txt => exact qext_speakCall c t txt
  | synthDone => exact qext_synthEndCb c t
  | synthFail d => exact qext_synthErrorCb c t d
  | fire j fl => exact qext_fireTimer c t j fl
  | data ch => exact qext_onData c ch t

/-- The events a single reaction appends to the queue. -/
def newEvents (c : VoiceClient) (t : Nat) (i : VInput) : List VEvent :=
  (step c t i).eventQueue.drop c.eventQueue.length

/-- All events produced over a whole run, in production order. -/
def emissions (c : VoiceClient) : List (Nat × VInput) → List VEvent
  | [] => []
  | (t, i) :: l => newEvents c t i ++ emissions (step c t i) l

theorem step_queue (c : VoiceClient) (t : Nat) (i : VInput) :
    (step c t i).eventQueue = c.eventQueue ++ newEvents c t i := by
  obtain ⟨new, he, -⟩ := qext_step c t i
  rw [newEvents, he, List.drop_left]

theorem newEvents_ts (c : VoiceClient) (t : Nat) (i : VInput) :
    ∀ e ∈ newEvents c t i, e.ts = t := by
  obtain ⟨new, he, hts⟩ := qext_step c t i
  rw [newEvents, he, List.drop_left]
  exact hts

theorem run_queue (l : List (Nat × VInput)) : ∀ c : VoiceClient,
    (run c l).eventQueue = c.eventQueue ++ emissions c l := by
  induction l with
  | nil => intro c; simp [run, emissions]
  | cons p l ih =>
    obtain ⟨t, i⟩ := p
    intro c
    rw [run, emissions, ih (step c t i), step_queue, List.append_assoc]

theorem chain_const_ts (t : Nat) : ∀ (l : List VEvent), (∀ e ∈ l, e.ts = t) →
    List.Chain' (· ≤ ·) (l.map VEvent.ts)
  | [] => by simp
  | [_] => by simp
  | a :: b :: l => by
    intro h
    rw [List.map_cons, List.map_cons, List.chain'_cons]
    refine ⟨?_, ?_⟩
    · rw [h a (by simp), h b (by simp)]
    · rw [← List.map_cons]
      exact chain_const_ts t (b :: l) (fun e he => h e (List.mem_cons_of_mem a he))

theorem run_ts_mono (l : List (Nat × VInput)) : ∀ (c : VoiceClient) (t0 : Nat),
    List.Chain' (· ≤ ·) (t0 :: l.map Prod.fst) →
    List.Chain' (· ≤ ·) (c.eventQueue.map VEvent.ts) →
    (∀ e ∈ c.eventQueue, e.ts ≤ t0) →
    List.Chain' (· ≤ ·) ((run c l).eventQueue.map VEvent.ts) := by
  induction l with
  | nil =>
    intro c t0 _ hq _
    simpa [run] using hq
  | cons p l ih =>
    obtain ⟨t, i⟩ := p
    intro c t0 hts hq hb
    have hts2 : List.Chain' (· ≤ ·) (t0 :: t :: l.map Prod.fst) := by simpa using hts
    have ht0t : t0 ≤ t := (List.chain'_cons.mp hts2).1
    have htail : List.Chain' (· ≤ ·) (t :: l.map Prod.fst) := (List.chain'_cons.mp hts2).2
    rw [run]
    apply ih (step c t i) t htail
    · rw [step_queue, List.map_append]
      rw [List.chain'_append]
      refine ⟨hq, chain_const_ts t _ (newEvents_ts c t i), ?_⟩
      intro x hx y hy
      have hx2 : x ∈ (c.eventQueue.map VEvent.ts) := List.mem_of_mem_getLast? hx
      have hy2 : y ∈ ((newEvents c t i).map VEvent.ts) := List.mem_of_mem_head? hy
      obtain ⟨ex, hex, hex2⟩ := List.mem_map.mp hx2
      obtain ⟨ey, hey, hey2⟩ := List.mem_map.mp hy2
      rw [← hex2, ← hey2, newEvents_ts c t i ey hey]
      exact le_trans (hb ex hex) ht0t
    · intro e he
      rw [step_queue] at he
      rcases List.mem_append.mp he with h | h
      · exact le_trans (hb e h) ht0t
      · rw [newEvents_ts c t i e h]

/-- Claim C7 (amended): the consumed event sequence equals the events
already queued before first consumption, then one StateChange reflecting the
state at subscription time, then every subsequently produced event in exact
production order with nothing dropped or reordered; timestamps are
non-decreasing whenever the reaction times are; the first event at or after
the subscription point is the subscription StateChange.  (The claim as
stated — the first yielded event reflects the subscription-time state — is
refuted by `events_presub_counterexample` when events were queued before
first consumption.) -/
theorem events_order_spec (c : VoiceClient) (t0 : Nat) (l : List (Nat × VInput))
    (hts : List.Chain' (· ≤ ·) (t0 :: l.map Prod.fst))
    (hq : List.Chain' (· ≤ ·) (c.eventQueue.map VEvent.ts))
    (hb : ∀ e ∈ c.eventQueue, e.ts ≤ t0) :
    (run (subscribe c t0) l).eventQueue =
      c.eventQueue ++ [VEvent.statechange c.state t0] ++ emissions (subscribe c t0) l ∧
    List.Chain' (· ≤ ·) ((run (subscribe c t0) l).eventQueue.map VEvent.ts) ∧
    ((run (subscribe c t0) l).eventQueue.drop c.eventQueue.length).head? =
      some (VEvent.statechange c.state t0) := by
  have h1 : (run (subscribe c t0) l).eventQueue =
      c.eventQueue ++ [VEvent.statechange c.state t0] ++ emissions (subscribe c t0) l := by
    rw [run_queue]
    simp [subscribe, emitEv, List.append_assoc]
  refine ⟨h1, ?_, ?_⟩
  · apply run_ts_mono l (subscribe c t0) t0 hts
    · rw [subscribe, emitEv]
      simp only [List.map_append]
      rw [List.chain'_append]
      refine ⟨hq, by simp, ?_⟩
      intro x hx y hy
      have hx2 : x ∈ (c.eventQueue.map VEvent.ts) := List.mem_of_mem_getLast? hx
      obtain ⟨ex, hex, hex2⟩ := List.mem_map.mp hx2
      simp [VEvent.ts] at hy
      rw [← hex2, ← hy]
      exact hb ex hex
    · intro e he
      rw [subscribe, emitEv] at he
      rcases List.mem_append.mp he with h | h
      · exact hb e h
      · simp at h
        rw [h, VEvent.ts]
  · rw [h1, List.append_assoc, List.drop_left]
    simp

/-- The session invariant: at most one capture session is live, it is the one
the `audioRecorder` field references, it exists only while Recording, and a
pending utterance from `speak` implies the Speaking state. -/
def SessionInv (c : VoiceClient) : Prop :=
  (c.speakPending = true → c.state = SPEAKING) ∧
  (c.liveSessions = [] ∨
    ∃ r, c.audioRecorder = some r ∧ c.liveSessions = [r.id] ∧
      c.state = RECORDING_USER_SPEECH)

theorem SessionInv.pending_false {c : VoiceClient} (h : SessionInv c)
    (hns : c.state ≠ SPEAKING) : c.speakPending = false := by
  cases hpc : c.speakPending
  · rfl
  · exact absurd (h.1 hpc) hns

theorem SessionInv.live_nil {c : VoiceClient} (h : SessionInv c)
    (hns : c.state ≠ RECORDING_USER_SPEECH) : c.liveSessions = [] := by
  rcases h.2 with hl | ⟨r, _, _, hst⟩
  · exact hl
  · exact absurd hst hns

theorem SessionInv.live_nil_of_none {c : VoiceClient} (h : SessionInv c)
    (har : c.audioRecorder = none) : c.liveSessions = [] := by
  rcases h.2 with hl | ⟨r, hr, _, _⟩
  · exact hl
  · rw [har] at hr
    exact absurd hr (by simp)

theorem inv_stopRecording (c : VoiceClient) (t : Nat) (f : Bool) (h : SessionInv c) :
    SessionInv (stopRecording c t f) := by
  by_cases hs : c.state = RECORDING_USER_SPEECH
  · have hpf : c.speakPending = false := h.pending_false (by rw [hs]; decide)
    cases har : c.audioRecorder with
    | none =>
      have hl := h.live_nil_of_none har
      constructor
      · simp [stopRecording, hs, har, setState, emitEv, clearTimeoutId, hpf]
      · left
        simp [stopRecording, hs, har, setState, emitEv, clearTimeoutId, hl]
    | some r =>
      have hl : c.liveSessions.filter (fun i => i != r.id) = [] := by
        rcases h.2 with hl | ⟨r2, hr2, hl2, _⟩
        · simp [hl]
        · rw [har] at hr2
          cases hr2
          simp [hl2]
      by_cases he : r.audioChunks.isEmpty <;> cases f <;>
        (constructor
         · simp [stopRecording, hs, har, setState, emitEv, clearTimeoutId,
             audioRecorderStop, he, logErrAct, act, hpf]
         · left
           simp [stopRecording, hs, har, setState, emitEv, clearTimeoutId,
             audioRecorderStop, he, logErrAct, act, hl])
  · have hform : stopRecording c t f = c := by simp [stopRecording, hs]
    rw [hform]
    exact h

theorem inv_activate (c : VoiceClient) (t : Nat) (cap : Bool) (h : SessionInv c) :
    SessionInv (activate c t cap) := by
  by_cases hs : c.state = LISTENING_FOR_WAKE_WORD
  · have hpf : c.speakPending = false := h.pending_false (by rw [hs]; decide)
    have hl : c.liveSessions = [] := h.live_nil (by rw [hs]; decide)
    cases cap
    · constructor
      · simp [activate, hs, setState, emitEv, logErrAct, act, hpf]
      · left
        simp [activate, hs, setState, emitEv, logErrAct, act, hl]
    · constructor
      · simp [activate, hs, setState, emitEv, logAct, act, armTimer, hpf]
      · right
        refine ⟨⟨c.nextSessionId, "audio/wav", []⟩, ?_, ?_, ?_⟩ <;>
          simp [activate, hs, setState, emitEv, logAct, act, armTimer, hl]
  · have hform : activate c t cap = c := by simp [activate, hs]
    rw [hform]
    exact h

theorem inv_of_fields {a b : VoiceClient} (h : SessionInv a)
    (hst : b.state = a.state) (hp : b.speakPending = a.speakPending)
    (hl : b.liveSessions = a.liveSessions) (hr : b.audioRecorder = a.audioRecorder) :
    SessionInv b := by
  obtain ⟨h1, h2⟩ := h
  constructor
  · rw [hp, hst]
    exact h1
  · rw [hl, hr, hst]
    exact h2

theorem inv_act (c : VoiceClient) (a : ExtAction) (h : SessionInv c) :
    SessionInv (act c a) :=
  inv_of_fields h (by simp [act]) (by simp [act]) (by simp [act]) (by simp [act])

theorem inv_emitEv (c : VoiceClient) (ev : VEvent) (h : SessionInv c) :
    SessionInv (emitEv c ev) :=
  inv_of_fields h (by simp [emitEv]) (by simp [emitEv]) (by simp [emitEv]) (by simp [emitEv])

theorem inv_onResultDispatch (c : VoiceClient) (t : Nat) (interim final : String)
    (cap : Bool) (h : SessionInv c) :
    SessionInv (onResultDispatch c t interim final cap) := by
  by_cases hL : c.state = LISTENING_FOR_WAKE_WORD
  · by_cases hw : wakePhrase c.wakeAnchor (interim ++ final) = true
    · have hform : onResultDispatch c t interim final cap = activate c t cap := by
        simp [onResultDispatch, hL, hw]
      rw [hform]
      exact inv_activate c t cap h
    · have hform : onResultDispatch c t interim final cap = c := by
        simp [onResultDispatch, hL, hw]
      rw [hform]
      exact h
  · by_cases hR : c.state = RECORDING_USER_SPEECH
    · refine inv_of_fields h ?_ ?_ ?_ ?_ <;>
        simp [onResultDispatch, hL, hR, clearTimeoutId, armTimer]
    · have hform : onResultDispatch c t interim final cap = c := by
        simp [onResultDispatch, hL, hR]
      rw [hform]
      exact h

theorem inv_onResult (c : VoiceClient) (t : Nat) (interim final : String) (cap : Bool)
    (h : SessionInv c) : SessionInv (onResult c t interim final cap) := by
  by_cases hm : c.state = MUTED
  · have hform : onResult c t interim final cap = c := by simp [onResult, hm]
    rw [hform]
    exact h
  · by_cases hi : interim = "" <;> by_cases hf : final = ""
    · have hform : onResult c t interim final cap =
          onResultDispatch c t interim final cap := by simp [onResult, hm, hi, hf]
      rw [hform]
      exact inv_onResultDispatch c t interim final cap h
    · have hform : onResult c t interim final cap =
          onResultDispatch (emitEv c (.transcriptEv final true t)) t interim final cap := by
        simp [onResult, hm, hi, hf]
      rw [hform]
      exact inv_onResultDispatch _ t interim final cap (inv_emitEv c _ h)
    · have hform : onResult c t interim final cap =
          onResultDispatch (emitEv c (.transcriptEv interim false t)) t interim final cap := by
        simp [onResult, hm, hi, hf]
      rw [hform]
      exact inv_onResultDispatch _ t interim final cap (inv_emitEv c _ h)
    · have hform : onResult c t interim final cap =
          onResultDispatch
            (emitEv (emitEv c (.transcriptEv interim false t)) (.transcriptEv final true t))
            t interim final cap := by
        simp [onResult, hm, hi, hf]
      rw [hform]
      exact inv_onResultDispatch _ t interim final cap (inv_emitEv _ _ (inv_emitEv c _ h))

theorem inv_onError (c : VoiceClient) (t : Nat) (kind : String) (fault : Bool)
    (h : SessionInv c) : SessionInv (onError c t kind fault) := by
  by_cases h1 : kind = "aborted"
  · have hform : onError c t kind fault = logAct c "Recognition aborted. Ignoring." := by
      simp [onError, h1]
    rw [hform]
    exact inv_act c _ h
  · by_cases h2 : kind = "no-speech"
    · have hform : onError c t kind fault =
          stopRecording (logAct c "Recognition: no-speech error.") t fault := by
        simp [onError, h1, h2]
      rw [hform]
      exact inv_stopRecording _ t fault (inv_act c _ h)
    · by_cases hs : c.state = RECORDING_USER_SPEECH
      · have hform : onError c t kind fault =
            stopRecording
              (logAct (emitEv c (.errorEv ("Recognition Error: \x27" ++ kind ++ "\x27") t))
                ("Error occurred in recognition: " ++ kind)) t fault := by
          simp [onError, h1, h2, hs, emitEv, logAct, act]
        rw [hform]
        exact inv_stopRecording _ t fault (inv_act _ _ (inv_emitEv c _ h))
      · have hform : onError c t kind fault =
            logAct (emitEv c (.errorEv ("Recognition Error: \x27" ++ kind ++ "\x27") t))
              ("Error occurred in recognition: " ++ kind) := by
          simp [onError, h1, h2, hs, emitEv, logAct, act]
        rw [hform]
        exact inv_act _ _ (inv_emitEv c _ h)

theorem inv_toggleMute (c : VoiceClient) (t : Nat) (f : Bool) (h : SessionInv c) :
    SessionInv (toggleMute c t f) := by
  by_cases hm : c.state = MUTED
  · have hpf : c.speakPending = false := h.pending_false (by rw [hm]; decide)
    have hl : c.liveSessions = [] := h.live_nil (by rw [hm]; decide)
    constructor
    · simp [toggleMute, hm, setState, emitEv, logAct, act, hpf]
    · left
      simp [toggleMute, hm, setState, emitEv, logAct, act, hl]
  · have hboth : (toggleMute c t f).liveSessions = [] ∧
        (toggleMute c t f).speakPending = false := by
      by_cases hr1 : c.state = RECORDING_USER_SPEECH
      · cases har : c.audioRecorder with
        | none =>
          have hl := h.live_nil_of_none har
          by_cases hp : c.speakPending = true <;>
            simp [toggleMute, muteTeardown, hm, hr1, har, setState, emitEv, logAct, act,
              clearTimeoutId, hp, hl]
        | some r =>
          have hl : c.liveSessions.filter (fun i => i != r.id) = [] := by
            rcases h.2 with hl | ⟨r2, hr2, hl2, _⟩
            · simp [hl]
            · rw [har] at hr2
              cases hr2
              simp [hl2]
          by_cases hp : c.speakPending = true <;>
            by_cases he : r.audioChunks.isEmpty <;> cases f <;>
            simp [toggleMute, muteTeardown, hm, hr1, har, setState, emitEv, logAct,
              logErrAct, act, clearTimeoutId, audioRecorderStop, hp, he, hl]
      · by_cases hr2 : c.state = ACTIVATING
        · have hl := h.live_nil (by rw [hr2]; decide)
          cases har : c.audioRecorder with
          | none =>
            by_cases hp : c.speakPending = true <;>
              simp [toggleMute, muteTeardown, hm, hr1, hr2, har, setState, emitEv, logAct,
                act, clearTimeoutId, hp, hl]
          | some r =>
            by_cases hp : c.speakPending = true <;>
              by_cases he : r.audioChunks.isEmpty <;> cases f <;>
              simp [toggleMute, muteTeardown, hm, hr1, hr2, har, setState, emitEv, logAct,
                logErrAct, act, clearTimeoutId, audioRecorderStop, hp, he, hl]
        · have hl := h.live_nil hr1
          by_cases hp : c.speakPending = true <;>
            simp [toggleMute, muteTeardown, hm, hr1, hr2, setState, emitEv, logAct, act,
              hp, hl]
    refine ⟨?_, Or.inl hboth.1⟩
    rw [hboth.2]
    intro hcontra
    exact absurd hcontra (by decide)

theorem inv_speakCall (c : VoiceClient) (t : Nat) (text : String) (h : SessionInv c)
    (hok1 : c.state ≠ ACTIVATING) (hok2 : c.state ≠ RECORDING_USER_SPEECH) :
    SessionInv (speakCall c t text) := by
  by_cases hm : c.state = MUTED
  · have hform : speakCall c t text = act c .speakResolve := by simp [speakCall, hm]
    rw [hform]
    exact inv_act c _ h
  · have hl := h.live_nil hok2
    constructor
    · intro _
      by_cases hsp : c.state = SPEAKING <;>
        simp [speakCall, hm, hsp, setState, emitEv, act]
    · left
      by_cases hsp : c.state = SPEAKING <;>
        simp [speakCall, hm, hsp, setState, emitEv, act, hl]

theorem inv_synthEndCb (c : VoiceClient) (t : Nat) (h : SessionInv c) :
    SessionInv (synthEndCb c t) := by
  by_cases hp : c.speakPending = true
  · have hsp : c.state = SPEAKING := h.1 hp
    have hl := h.live_nil (by rw [hsp]; decide)
    have hm : ¬c.state = MUTED := by rw [hsp]; decide
    have hlw : ¬c.state = LISTENING_FOR_WAKE_WORD := by rw [hsp]; decide
    constructor
    · simp [synthEndCb, hp, hm, hlw, setState, emitEv, act]
    · left
      simp [synthEndCb, hp, hm, hlw, setState, emitEv, act, hl]
  · have hform : synthEndCb c t = c := by simp [synthEndCb, hp]
    rw [hform]
    exact h

theorem inv_synthErrorCb (c : VoiceClient) (t : Nat) (d : String) (h : SessionInv c) :
    SessionInv (synthErrorCb c t d) := by
  by_cases hp : c.speakPending = true
  · have hsp : c.state = SPEAKING := h.1 hp
    have hl := h.live_nil (by rw [hsp]; decide)
    have hm : ¬c.state = MUTED := by rw [hsp]; decide
    have hlw : ¬c.state = LISTENING_FOR_WAKE_WORD := by rw [hsp]; decide
    constructor
    · simp [synthErrorCb, hp, hm, hlw, setState, emitEv, act]
    · left
      simp [synthErrorCb, hp, hm, hlw, setState, emitEv, act, hl]
  · have hform : synthErrorCb c t d = c := by simp [synthErrorCb, hp]
    rw [hform]
    exact h

theorem inv_onSpeechStart (c : VoiceClient) (h : SessionInv c) :
    SessionInv (onSpeechStart c) := by
  by_cases hc : (decide (c.state = RECORDING_USER_SPEECH) &&
      c.noSpeechAfterWakeWordTimeout.isSome) = true
  · exact inv_of_fields h (by simp [onSpeechStart, hc, clearTimeoutId])
      (by simp [onSpeechStart, hc, clearTimeoutId])
      (by simp [onSpeechStart, hc, clearTimeoutId])
      (by simp [onSpeechStart, hc, clearTimeoutId])
  · have hform : onSpeechStart c = c := by simp [onSpeechStart, hc]
    rw [hform]
    exact h

theorem inv_onEnd (c : VoiceClient) (h : SessionInv c) : SessionInv (onEnd c) := by
  by_cases hc : (decide (c.state = SPEAKING) || decide (c.state = MUTED)) = true
  · have hform : onEnd c = c := by simp [onEnd, hc]
    rw [hform]
    exact h
  · have hform : onEnd c = act c .recStart := by simp [onEnd, hc]
    rw [hform]
    exact inv_act c _ h

theorem inv_onData (c : VoiceClient) (chunk : Nat) (h : SessionInv c) :
    SessionInv (onData c chunk) := by
  cases har : c.audioRecorder with
  | none =>
    have hform : onData c chunk = c := by simp [onData, har]
    rw [hform]
    exact h
  | some r =>
    obtain ⟨h1, h2⟩ := h
    constructor
    · simpa [onData, har] using h1
    · rcases h2 with hl | ⟨r2, hr2, hl2, hst⟩
      · left
        simpa [onData, har] using hl
      · right
        rw [har] at hr2
        cases hr2
        exact ⟨{ r with audioChunks := r.audioChunks ++ [chunk] },
          by simp [onData, har], by simpa [onData, har] using hl2,
          by simpa [onData, har] using hst⟩

theorem inv_fireTimer (c : VoiceClient) (t : Nat) (i : Nat) (f : Bool)
    (h : SessionInv c) : SessionInv (fireTimer c t i f) := by
  cases hfind : c.pendingTimers.find? (fun e => e.id == i) with
  | none =>
    have hform : fireTimer c t i f = c := by simp [fireTimer, hfind]
    rw [hform]
    exact h
  | some e =>
    have hmid : SessionInv { c with pendingTimers := c.pendingTimers.filter (fun x => x.id != i) } :=
      inv_of_fields h (by simp) (by simp) (by simp) (by simp)
    cases hk : e.kind with
    | endOfSpeech =>
      have hform : fireTimer c t i f =
          stopRecording { c with pendingTimers := c.pendingTimers.filter (fun x => x.id != i) }
            t f := by
        simp [fireTimer, hfind, hk]
      rw [hform]
      exact inv_stopRecording _ t f hmid
    | noSpeechAfterWake =>
      have hform : fireTimer c t i f =
          stopRecording
            (logAct { c with pendingTimers := c.pendingTimers.filter (fun x => x.id != i) }
              "No speech detected for 15s, cancelling recording.") t f := by
        simp [fireTimer, hfind, hk]
      rw [hform]
      exact inv_stopRecording _ t f (inv_act _ _ hmid)

/-- The discipline under which the session invariant is preserved: `speak` is
never invoked while Activating or Recording. -/
def okInput (c : VoiceClient) : VInput → Bool
  | .speakReq _ =>
    !(decide (c.state = ACTIVATING) || decide (c.state = RECORDING_USER_SPEECH))
  | _ => true

def okRun (c : VoiceClient) : List (Nat × VInput) → Bool
  | [] => true
  | (t, i) :: l => okInput c i && okRun (step c t i) l

theorem inv_step (c : VoiceClient) (t : Nat) (i : VInput) (h : SessionInv c)
    (hok : okInput c i = true) : SessionInv (step c t i) := by
  cases i with
  | result a b cap => exact inv_onResult c t a b cap h
  | recError k fl => exact inv_onError c t k fl h
  | speechStart => exact inv_onSpeechStart c h
  | recEnded => exact inv_onEnd c h
  | mute fl => exact inv_toggleMute c t fl h
  | speakReq txt =>
    simp [okInput] at hok
    exact inv_speakCall c t txt h hok.1 hok.2
  | synthDone => exact inv_synthEndCb c t h
  | synthFail d => exact inv_synthErrorCb c t d h
  | fire j fl => exact inv_fireTimer c t j fl h
  | data ch => exact inv_onData c ch h

theorem inv_run (l : List (Nat × VInput)) : ∀ c : VoiceClient, SessionInv c →
    okRun c l = true → SessionInv (run c l) := by
  induction l with
  | nil => intro c h _; exact h
  | cons p l ih =>
    obtain ⟨t, i⟩ := p
    intro c h hok
    simp [okRun, Bool.and_eq_true] at hok
    exact ih (step c t i) (inv_step c t i h hok.1) hok.2

/-- Claim C1 (amended): in every run in which `speak` is never invoked while
Activating or Recording, at most one Capture Session is live at any time; a
session is created only by the Activate transition and the previous one is
stopped before another can be created.  (The unrestricted claim is refuted by
`double_session_counterexample`: calling `speak` while Recording leaves the
session live, and a later wake-word activation creates a second one.) -/
theorem single_session_invariant (c : VoiceClient) (l : List (Nat × VInput))
    (hinv : SessionInv c) (hok : okRun c l = true) :
    (run c l).liveSessions.length ≤ 1 := by
  have h := inv_run l c hinv hok
  rcases h.2 with hl | ⟨r, _, hl, _⟩ <;> simp [hl]

/-- A run that refutes claim C1 as stated: wake-word activation, then
`speak("hi")` while Recording, synthesis completion (back to
ListeningForWake with the session still live), then a second wake-word
activation. -/
def doubleSessionRun : List (Nat × VInput) :=
  [ (1, .result "" "ok metallica " true)
  , (2, .speakReq "hi")
  , (3, .synthDone)
  , (4, .result "" "ok metallica " true) ]

/-- Counterexample to claim C1 as stated: after `doubleSessionRun` two
capture sessions are live simultaneously (the first was never stopped). -/
theorem double_session_counterexample :
    (run (initClient LISTENING_FOR_WAKE_WORD "metallica") doubleSessionRun).liveSessions.length
      = 2 := by
  decide

/-- Witness for the amended claim C1 at a concrete client and run. -/
theorem single_session_witness :
    okRun (initClient MUTED "metallica")
      [(1, .mute false), (2, .result "" "ok metallica " true)] = true ∧
    (run (initClient MUTED "metallica")
      [(1, .mute false), (2, .result "" "ok metallica " true)]).liveSessions.length ≤ 1 :=
  ⟨by decide,
   single_session_invariant _ _
     ⟨fun h => by simp [initClient] at h, Or.inl rfl⟩ (by decide)⟩

/-- A freshly initialized listening client. -/
def listenClient : VoiceClient := initClient LISTENING_FOR_WAKE_WORD "metallica"

/-- A client in the middle of a recording: one live session with one chunk,
both timers armed. -/
def recClient : VoiceClient :=
  { listenClient with
      state := RECORDING_USER_SPEECH,
      audioRecorder := some ⟨0, "audio/wav", [5]⟩,
      liveSessions := [0],
      nextSessionId := 1,
      endOfSpeechTimeout := some 3,
      noSpeechAfterWakeWordTimeout := some 2,
      pendingTimers := [⟨2, .noSpeechAfterWake, 15000⟩, ⟨3, .endOfSpeech, 5000⟩],
      nextTimerId := 4 }

/-- A client whose `speak` utterance is in flight. -/
def speakingClient : VoiceClient :=
  { listenClient with state := SPEAKING, speakPending := true }

/-- Witness for claim C2 at a concrete recording client and delta. -/
theorem endOfSpeech_rearm_witness :
    (onResult recClient 9 "hello" "" true).finalTranscriptSinceRecording =
      recClient.finalTranscriptSinceRecording ++ "" ∧
    (onResult recClient 9 "hello" "" true).endOfSpeechTimeout = some recClient.nextTimerId ∧
    (onResult recClient 9 "hello" "" true).pendingTimers.filter
        (fun e => e.kind == TimerKind.endOfSpeech) =
      [⟨recClient.nextTimerId, TimerKind.endOfSpeech,
        if (recClient.finalTranscriptSinceRecording ++ "").length + "hello".length > 0
        then 1700 else 5000⟩] ∧
    (∀ i, recClient.endOfSpeechTimeout = some i →
      ∀ e ∈ (onResult recClient 9 "hello" "" true).pendingTimers, e.id ≠ i) :=
  endOfSpeech_rearm recClient 9 "hello" "" true rfl
    ⟨by decide, by decide, by decide, by decide, by decide⟩

/-- Witness for claim C3: stopping the concrete recording client. -/
theorem stopRecording_spec_witness :
    (stopRecording recClient 7 false).state = PROCESSING_USER_SPEECH ∧
    (stopRecording recClient 7 false).endOfSpeechTimeout = none ∧
    (stopRecording recClient 7 false).noSpeechAfterWakeWordTimeout = none ∧
    (stopRecording recClient 7 false).audioRecorder = none ∧
    (0 : Nat) ∉ (stopRecording recClient 7 false).liveSessions ∧
    (stopRecording recClient 7 false).eventQueue =
      recClient.eventQueue ++ [.statechange PROCESSING_USER_SPEECH 7,
        .command (if ([5] : List Nat).isEmpty then none else some (urlOf ⟨0, "audio/wav", [5]⟩))
                 (if ([5] : List Nat).isEmpty then none
                  else some (extensionOf "audio/wav")) 7] :=
  (stopRecording_spec recClient 7 false ⟨0, "audio/wav", [5]⟩).2 rfl rfl rfl

/-- Witness for claim C4: muting the concrete recording client. -/
theorem toggleMute_spec_witness :
    (toggleMute recClient 8 false).state = MUTED ∧
    ExtAction.recStop ∈ (toggleMute recClient 8 false).actions ∧
    ExtAction.synthCancel ∈ (toggleMute recClient 8 false).actions ∧
    (toggleMute recClient 8 false).eventQueue.filter VEvent.isCommand =
      recClient.eventQueue.filter VEvent.isCommand ∧
    ((recClient.state = RECORDING_USER_SPEECH ∨ recClient.state = ACTIVATING) →
      (toggleMute recClient 8 false).audioRecorder = none ∧
      (toggleMute recClient 8 false).endOfSpeechTimeout = none ∧
      (toggleMute recClient 8 false).noSpeechAfterWakeWordTimeout = none ∧
      (timerWF recClient → (toggleMute recClient 8 false).pendingTimers = []) ∧
      (∀ r, recClient.audioRecorder = some r →
        r.id ∉ (toggleMute recClient 8 false).liveSessions ∧
        (r.audioChunks ≠ [] → false = false →
          ExtAction.revokeUrl (urlOf r) ∈ (toggleMute recClient 8 false).actions))) :=
  (toggleMute_spec recClient 8 false).2 (by decide)

/-- Witness for claim C5: speaking from the listening client and completing
from the speaking client. -/
theorem speak_spec_witness :
    ((speakCall listenClient 4 "hello").state = SPEAKING ∧
     ExtAction.recStop ∈ (speakCall listenClient 4 "hello").actions ∧
     ExtAction.synthSpeak "hello" ∈ (speakCall listenClient 4 "hello").actions ∧
     (speakCall listenClient 4 "hello").eventQueue =
       listenClient.eventQueue ++
         (if listenClient.state = SPEAKING then [.speakstart "hello" 4]
          else [.statechange SPEAKING 4, .speakstart "hello" 4]) ∧
     (speakCall listenClient 4 "hello").speakPending = true) ∧
    ((synthEndCb speakingClient 6).state =
       (if speakingClient.state = MUTED then MUTED else LISTENING_FOR_WAKE_WORD) ∧
     (synthEndCb speakingClient 6).eventQueue =
       speakingClient.eventQueue ++ [.speakend 6] ++
         (if speakingClient.state = MUTED then []
          else if speakingClient.state = LISTENING_FOR_WAKE_WORD then []
          else [.statechange LISTENING_FOR_WAKE_WORD 6]) ∧
     ExtAction.recStart ∈ (synthEndCb speakingClient 6).actions ∧
     ExtAction.speakResolve ∈ (synthEndCb speakingClient 6).actions ∧
     (synthEndCb speakingClient 6).speakPending = false) :=
  ⟨(speak_spec listenClient 4 "hello").2.1 (by decide),
   (speak_spec speakingClient 6 "x").2.2 rfl⟩

/-- Witness for claim C6: the matcher accepts a concrete utterance
(case-insensitively, with punctuation between keyword and anchor) and the
machine activates on a concrete wake result. -/
theorem wake_matcher_witness :
    wakePhrase "metallica" "Hey OK, Metallica please" = true ∧
    (onResult listenClient 4 "" "ok metallica " true).state = RECORDING_USER_SPEECH := by
  constructor
  · exact (wake_matcher_spec "metallica").2.1 "Hey OK, Metallica please"
      "hey ".toList ['o', 'k'] ", ".toList " please".toList
      (by decide) (Or.inl rfl) (by decide) (by decide)
  · exact ((wake_matcher_spec "metallica").2.2 listenClient 4 "" "ok metallica "
      rfl (by decide) ⟨by decide, by decide, by decide, by decide, by decide⟩).1

/-- Counterexample to claim C7 as stated: two mute toggles happen before the
event sequence is first consumed; the first consumed event is then the stale
`statechange` to MUTED from timestamp 1, not a `statechange` reflecting the
state at subscription time (ListeningForWake at timestamp 3). -/
theorem events_presub_counterexample :
    ((subscribe (toggleMute (toggleMute listenClient 1 false) 2 false) 3).eventQueue.head? =
      some (VEvent.statechange MUTED 1)) ∧
    (toggleMute (toggleMute listenClient 1 false) 2 false).state =
      LISTENING_FOR_WAKE_WORD := by
  decide

/-- Witness for the amended claim C7 at a concrete subscription and run. -/
theorem events_order_witness :
    (run (subscribe listenClient 5) [(6, .mute false)]).eventQueue =
      listenClient.eventQueue ++ [VEvent.statechange LISTENING_FOR_WAKE_WORD 5] ++
        emissions (subscribe listenClient 5) [(6, .mute false)] ∧
    List.Chain' (· ≤ ·)
      ((run (subscribe listenClient 5) [(6, .mute false)]).eventQueue.map VEvent.ts) ∧
    ((run (subscribe listenClient 5) [(6, .mute false)]).eventQueue.drop
        listenClient.eventQueue.length).head? =
      some (VEvent.statechange listenClient.state 5) :=
  events_order_spec listenClient 5 [(6, .mute false)]
    (by simp [List.chain'_cons])
    (by simp [listenClient, initClient]) (by simp [listenClient, initClient])

/-- Witness for claim C8: a fatal recognizer error while Recording emits an
Error event and drives the machine to Processing; the aborted and no-speech
kinds behave as routed. -/
theorem onError_routing_witness :
    (onError recClient 3 "aborted" false =
      logAct recClient "Recognition aborted. Ignoring.") ∧
    coreEq (onError recClient 3 "no-speech" false) (stopRecording recClient 3 false) ∧
    (VEvent.errorEv "Recognition Error: \x27network\x27" 3 ∈
      (onError recClient 3 "network" false).eventQueue ∧
     (onError recClient 3 "network" false).state = PROCESSING_USER_SPEECH) := by
  refine ⟨?_, ?_, ?_, ?_⟩
  · exact (onError_routing recClient 3 "aborted" false).1 rfl
  · exact ((onError_routing recClient 3 "no-speech" false).2.1 rfl).1
  · exact ((onError_routing recClient 3 "network" false).2.2 (by decide) (by decide)).1
  · exact ((onError_routing recClient 3 "network" false).2.2 (by decide) (by decide)).2.1 rfl

/-- Counterexample to claim C9 as stated: with the capture engine failing,
the wake-word result leaves the machine in Activating — not back in
ListeningForWake — and a later wake result (even with capture available
again) leaves it stuck in Activating. -/
theorem activate_failure_counterexample :
    (onResult listenClient 1 "" "ok metallica " false).state = ACTIVATING ∧
    (onResult (onResult listenClient 1 "" "ok metallica " false)
        2 "" "ok metallica " true).state = ACTIVATING := by
  decide

/-- Witness for the amended claim C9 at a concrete client. -/
theorem activate_failure_witness :
    (onResult listenClient 2 "" "ok metallica " false).state = ACTIVATING ∧
    (onResult listenClient 2 "" "ok metallica " false).audioRecorder =
      listenClient.audioRecorder ∧
    (onResult listenClient 2 "" "ok metallica " false).liveSessions =
      listenClient.liveSessions ∧
    (onResult listenClient 2 "" "ok metallica " false).pendingTimers =
      listenClient.pendingTimers ∧
    ExtAction.logErrorMsg "Could not start audio recording" ∈
      (onResult listenClient 2 "" "ok metallica " false).actions ∧
    (onResult listenClient 2 "" "ok metallica " false).rejections =
      listenClient.rejections ++ ["Could not get user media"] :=
  activate_failure_spec listenClient 2 "" "ok metallica " rfl (by decide)

/-- Counterexample to claim C10 as stated: when finalization faults with
chunks present, Stop-Recording emits neither a Command event nor an Error
event; the failure escapes as a rejected promise instead. -/
theorem finalize_failure_counterexample :
    (stopRecording recClient 5 true).eventQueue.filter VEvent.isCommand = [] ∧
    (stopRecording recClient 5 true).eventQueue.filter VEvent.isError = [] ∧
    (stopRecording recClient 5 true).rejections =
      ["Failed to process recorded audio."] := by
  decide

/-- Witness for the amended claim C10 at a concrete client. -/
theorem finalize_failure_witness :
    (stopRecording recClient 5 true).state = PROCESSING_USER_SPEECH ∧
    (stopRecording recClient 5 true).eventQueue =
      recClient.eventQueue ++ [.statechange PROCESSING_USER_SPEECH 5] ∧
    (stopRecording recClient 5 true).audioRecorder = some ⟨0, "audio/wav", [5]⟩ ∧
    ExtAction.logErrorMsg "Error processing audio" ∈ (stopRecording recClient 5 true).actions ∧
    (stopRecording recClient 5 true).rejections =
      recClient.rejections ++ ["Failed to process recorded audio."] :=
  finalize_failure_spec recClient 5 ⟨0, "audio/wav", [5]⟩ rfl rfl (by decide)
